import Mathlib

/-!
Verification of the dumpspace-api layout parser and lookup tables
(`src/lib.rs`).  The Rust code is shallowly embedded: strings are modelled
as their UTF-8 byte lists (the code slices keys at byte granularity),
`serde_json::Value` as an inductive `Json`, the `HashMap`s as association
lists with overwrite-on-insert, and every `unwrap`/`assert!`/`panic!` as
an `Option`/flag failure.  `parse_class_info`, the enum and offsets
ingestion loops of `download_content`, and the query API are translated
function by function.
-/

set_option autoImplicit false

namespace Dumpspace

/-- A Rust `String`, viewed as its UTF-8 byte sequence. -/
abbrev Str := List Nat

/-- UTF-8 encoding of one character (the standard 1-4 byte encoding). -/
def utf8EncodeCharBytes (c : Char) : List Nat :=
  let n := c.toNat
  if n < 0x80 then [n]
  else if n < 0x800 then [0xC0 + n / 0x40, 0x80 + n % 0x40]
  else if n < 0x10000 then
    [0xE0 + n / 0x1000, 0x80 + (n / 0x40) % 0x40, 0x80 + n % 0x40]
  else
    [0xF0 + n / 0x40000, 0x80 + (n / 0x1000) % 0x40,
     0x80 + (n / 0x40) % 0x40, 0x80 + n % 0x40]

/-- The UTF-8 bytes of a Lean string literal, used to write concrete keys. -/
def strBytes (s : String) : Str := s.data.flatMap utf8EncodeCharBytes

/-- `serde_json::Value`, restricted to the shapes the parser touches. -/
inductive Json where
  | num (n : Int)
  | str (s : Str)
  | arr (xs : List Json)
  | obj (fields : List (Str × Json))
  | null

namespace Json

/-- `Value::as_i64`: the integer when it fits in a signed 64-bit word. -/
def asI64 : Json → Option Int
  | num n => if -(2 ^ 63) ≤ n ∧ n < 2 ^ 63 then some n else none
  | _ => none

/-- `Value::as_u64`: the integer when it fits in an unsigned 64-bit word. -/
def asU64 : Json → Option Int
  | num n => if 0 ≤ n ∧ n < 2 ^ 64 then some n else none
  | _ => none

/-- `Value::as_str`. -/
def asStr : Json → Option Str
  | str s => some s
  | _ => none

/-- `Value::as_array`. -/
def asArray : Json → Option (List Json)
  | arr xs => some xs
  | _ => none

end Json

/-- `i64 as i32`: two's-complement truncation to 32 bits. -/
def toI32 (n : Int) : Int := (n + 2 ^ 31) % 2 ^ 32 - 2 ^ 31

/-- `i64 as usize` on a 64-bit target: reduction modulo `2 ^ 64`. -/
def toUsize (n : Int) : Nat := (n % 2 ^ 64).toNat

/-- `HashMap::insert`: overwrite the binding if the key is present,
otherwise append it. -/
def insertA {β : Type} : List (Str × β) → Str → β → List (Str × β)
  | [], k, v => [(k, v)]
  | (k', v') :: rest, k, v =>
    if k' = k then (k, v) :: rest else (k', v') :: insertA rest k v

/-- `HashMap::get`. -/
def lookupA {β : Type} : List (Str × β) → Str → Option β
  | [], _ => none
  | (k', v') :: rest, k => if k' = k then some v' else lookupA rest k

/-- The keys bound in a map; a key was never inserted iff it is not here. -/
def keysOf {β : Type} (m : List (Str × β)) : List Str := m.map Prod.fst

/-- `OffsetInfo` from `lib.rs`. -/
structure OffsetInfo where
  offset : Int
  size : Int
  is_bit : Bool
  bit_offset : Int
  valid : Bool
  deriving DecidableEq

/-- `OffsetInfo::new()`. -/
def OffsetInfo.new : OffsetInfo :=
  { offset := 0, size := 0, is_bit := false, bit_offset := 0, valid := false }

/-- The four lookup tables of `DSAPI` that ingestion populates. -/
structure DSAPIState where
  class_member_map : List (Str × OffsetInfo)
  class_size_map : List (Str × Int)
  enum_name_map : List (Str × Str)
  offset_map : List (Str × Int)
  deriving DecidableEq

/-- The fresh state built by `DSAPI::new` (all maps empty). -/
def emptyState : DSAPIState :=
  { class_member_map := [], class_size_map := [], enum_name_map := [], offset_map := [] }

/-- A class/struct or enum blob: `BlobInfo { data, version }`. -/
structure BlobInfo where
  data : List (List (Str × Json))
  version : Nat

/-- The reserved size-marker key `__MDKClassSize`. -/
def sizeMarker : Str := strBytes "__MDKClassSize"

/-- The reserved inheritance-marker key `__InheritInfo`. -/
def inheritMarker : Str := strBytes "__InheritInfo"

/-- ASCII decimal digits of a natural number (fuel-indexed helper). -/
def natDecAux : Nat → Nat → List Nat
  | 0, _ => []
  | fuel + 1, n =>
    if n < 10 then [48 + n] else natDecAux fuel (n / 10) ++ [48 + n % 10]

/-- ASCII decimal digits of a natural number. -/
def natDecBytes (n : Nat) : Str := natDecAux (n + 1) n

/-- `i64::to_string`, as UTF-8 bytes: a minus sign for negatives, then
the decimal digits. -/
def intDecBytes (v : Int) : Str :=
  if v < 0 then 45 :: natDecBytes v.natAbs else natDecBytes v.toNat

/-- `str::is_char_boundary` at position `i` (for in-range `i`): position 0,
or a byte that is not a UTF-8 continuation byte. -/
def isBoundary (key : Str) (i : Nat) : Bool :=
  i = 0 ||
    (match key[i]? with
     | some b => decide (b < 0x80 ∨ 0xC0 ≤ b)
     | none => true)

/-- The slice `&key[..key.len() - 4]`: `none` models the panic, which fires
when the name is shorter than 4 bytes (index underflow / out of range) or
the cut is not on a character boundary. -/
def stripLast4 (key : Str) : Option Str :=
  if key.length < 4 then none
  else if isBoundary key (key.length - 4) then some (key.take (key.length - 4))
  else none

/-- One iteration of the record loop in `parse_class_info`: a record is a
JSON object (after the `Vec<HashMap<String, Value>>` re-parse), required by
the `assert!` to hold exactly one key.  `none` models a panic; per record,
every panic fires before the record's single insertion, so a panicking
record leaves the state untouched. -/
def parseRecord (version : Nat) (cname : Str) (record : List (Str × Json))
    (s : DSAPIState) : Option DSAPIState :=
  match record with
  | [(key, val)] =>
    if key = sizeMarker then
      match val.asI64 with
      | some n => some { s with class_size_map := insertA s.class_size_map cname (toI32 n) }
      | none => none
    else if key = inheritMarker then some s
    else
      match val.asArray with
      | none => none
      | some xs =>
        match xs[1]?.bind Json.asI64, xs[2]?.bind Json.asI64 with
        | some off, some sz =>
          let plain : OffsetInfo :=
            { offset := off, size := sz, is_bit := false, bit_offset := 0, valid := true }
          let bit : Int → OffsetInfo := fun b =>
            { offset := off, size := sz, is_bit := true, bit_offset := toI32 b, valid := true }
          if version = 10201 then
            if xs.length = 4 then
              match xs[3]?.bind Json.asI64 with
              | some b =>
                match stripLast4 key with
                | some stripped =>
                  some { s with class_member_map := insertA s.class_member_map (cname ++ stripped) (bit b) }
                | none => none
              | none => none
            else
              some { s with class_member_map := insertA s.class_member_map (cname ++ key) plain }
          else if version = 10202 then
            if xs.length = 5 then
              match xs[4]?.bind Json.asI64 with
              | some b =>
                some { s with class_member_map := insertA s.class_member_map (cname ++ key) (bit b) }
              | none => none
            else
              some { s with class_member_map := insertA s.class_member_map (cname ++ key) plain }
          else none
        | _, _ => none
  | _ => none

/-- The record loop of `parse_class_info` over one type's record list;
the `Bool` is the panicked flag, and the returned state is the one in
force when the loop stopped (Rust mutates `dsapi` in place). -/
def parseRecords (version : Nat) (cname : Str) :
    List (List (Str × Json)) → DSAPIState → DSAPIState × Bool
  | [], s => (s, false)
  | r :: rs, s =>
    match parseRecord version cname r s with
    | none => (s, true)
    | some s' => parseRecords version cname rs s'

/-- The `serde_json::from_str::<Vec<HashMap<String, Value>>>` re-parse of a
group's value: it must be an array of objects, anything else panics. -/
def asObjList : List Json → Option (List (List (Str × Json)))
  | [] => some []
  | j :: js =>
    match j with
    | Json.obj fields => (asObjList js).map (fields :: ·)
    | _ => none

/-- The value attached to a type name, decoded to its record list. -/
def asRecordList (j : Json) : Option (List (List (Str × Json))) :=
  match j with
  | Json.arr xs => asObjList xs
  | _ => none

/-- The `(key, value)` loop of `parse_class_info` over one group of
`data` (one `HashMap<String, Value>` of type names). -/
def parseGroupPairs (version : Nat) :
    List (Str × Json) → DSAPIState → DSAPIState × Bool
  | [], s => (s, false)
  | (cname, v) :: rest, s =>
    match asRecordList v with
    | none => (s, true)
    | some recs =>
      match parseRecords version cname recs s with
      | (s', true) => (s', true)
      | (s', false) => parseGroupPairs version rest s'

/-- The outer `for class in &classes_info.data` loop. -/
def parseGroups (version : Nat) :
    List (List (Str × Json)) → DSAPIState → DSAPIState × Bool
  | [], s => (s, false)
  | g :: gs, s =>
    match parseGroupPairs version g s with
    | (s', true) => (s', true)
    | (s', false) => parseGroups version gs s'

/-- `parse_class_info` from `download_content`: ingest one class/struct
blob into the tables.  The flag records whether a panic aborted it. -/
def parse_class_info (blob : BlobInfo) (s : DSAPIState) : DSAPIState × Bool :=
  parseGroups blob.version blob.data s

/-- One enum entry `{"Name": value}`: insert the symbolic name under
`enum_name ++ value.to_string()`.  `none` models the panics (non-object
entry, not exactly one key, non-integer value). -/
def parseEnumEntry (ename : Str) (entry : Json) (s : DSAPIState) : Option DSAPIState :=
  match entry with
  | Json.obj [(name, v)] =>
    match v.asI64 with
    | some n =>
      some { s with enum_name_map := insertA s.enum_name_map (ename ++ intDecBytes n) name }
    | none => none
  | _ => none

/-- The entry loop over one enum's value list. -/
def parseEnumEntries (ename : Str) :
    List Json → DSAPIState → DSAPIState × Bool
  | [], s => (s, false)
  | e :: es, s =>
    match parseEnumEntry ename e s with
    | none => (s, true)
    | some s' => parseEnumEntries ename es s'

/-- One `(enum_name, value)` pair: `value.as_array().unwrap()[0]` (panic on
non-array or empty array), then `as_array().unwrap()` again, then the
entry loop. -/
def parseEnumPair (ename : Str) (j : Json) (s : DSAPIState) : DSAPIState × Bool :=
  match j.asArray with
  | none => (s, true)
  | some xs =>
    match xs[0]? with
    | none => (s, true)
    | some e0 =>
      match e0.asArray with
      | none => (s, true)
      | some entries => parseEnumEntries ename entries s

/-- The `(key, value)` loop over one group of the enum blob's `data`. -/
def parseEnumPairs :
    List (Str × Json) → DSAPIState → DSAPIState × Bool
  | [], s => (s, false)
  | (ename, v) :: rest, s =>
    match parseEnumPair ename v s with
    | (s', true) => (s', true)
    | (s', false) => parseEnumPairs rest s'

/-- The outer `for enum_info in &enums_info.data` loop. -/
def parseEnumGroups :
    List (List (Str × Json)) → DSAPIState → DSAPIState × Bool
  | [], s => (s, false)
  | g :: gs, s =>
    match parseEnumPairs g s with
    | (s', true) => (s', true)
    | (s', false) => parseEnumGroups gs s'

/-- The enum-ingestion section of `download_content`. -/
def parse_enums_info (blob : BlobInfo) (s : DSAPIState) : DSAPIState × Bool :=
  parseEnumGroups blob.data s

/-- One row of the offsets blob: `[name, value]`, read with
`offset[0].as_str().unwrap()` and `offset[1].as_u64().unwrap()`. -/
def parseOffsetRow (row : List Json) (s : DSAPIState) : Option DSAPIState :=
  match row[0]?.bind Json.asStr, row[1]?.bind Json.asU64 with
  | some name, some v =>
    some { s with offset_map := insertA s.offset_map name v }
  | _, _ => none

/-- The `for offset in &offsets_info.data` loop. -/
def parseOffsetRows : List (List Json) → DSAPIState → DSAPIState × Bool
  | [], s => (s, false)
  | r :: rs, s =>
    match parseOffsetRow r s with
    | none => (s, true)
    | some s' => parseOffsetRows rs s'

/-- The offsets-ingestion section of `download_content`. -/
def parse_offsets_info (rows : List (List Json)) (s : DSAPIState) : DSAPIState × Bool :=
  parseOffsetRows rows s

/-- `DSAPI::download_content`, abstracted over the four fetched documents
(fetching and decompression are external collaborators): classes blob,
then structs blob through the same `parse_class_info`, then enums, then
offsets, each aborting the rest on panic.  The `FunctionsInfo` section is
commented out in the source and so absent here. -/
def download_content (classes structs enums : BlobInfo)
    (offsets : List (List Json)) : DSAPIState × Bool :=
  match parse_class_info classes emptyState with
  | (s1, true) => (s1, true)
  | (s1, false) =>
    match parse_class_info structs s1 with
    | (s2, true) => (s2, true)
    | (s2, false) =>
      match parse_enums_info enums s2 with
      | (s3, true) => (s3, true)
      | (s3, false) => parse_offsets_info offsets s3

/-- `DSAPI::get_member_offset`. -/
def get_member_offset (s : DSAPIState) (class_name member_name : Str) :
    Option OffsetInfo :=
  lookupA s.class_member_map (class_name ++ member_name)

/-- `DSAPI::get_class_size`. -/
def get_class_size (s : DSAPIState) (class_name : Str) : Option Int :=
  lookupA s.class_size_map class_name

/-- `DSAPI::get_enum_name`. -/
def get_enum_name (s : DSAPIState) (enum_name : Str) (enum_value : Int) :
    Option Str :=
  lookupA s.enum_name_map (enum_name ++ intDecBytes enum_value)

/-- `DSAPI::get_offset`. -/
def get_offset (s : DSAPIState) (offset_name : Str) : Option Int :=
  lookupA s.offset_map offset_name

/-- `DSAPI::get_member_offset_unchecked`: `.unwrap().offset as usize`;
`none` models the panic on an absent key. -/
def get_member_offset_unchecked (s : DSAPIState) (class_name member_name : Str) :
    Option Nat :=
  (lookupA s.class_member_map (class_name ++ member_name)).map
    (fun info => toUsize info.offset)

/-- Bitfield status as a function of the version tag and the member
array's length, the shape both recognized schema versions share. -/
def isBitOf (version len : Nat) : Bool :=
  (version == 10201 && len == 4) || (version == 10202 && len == 5)

/-- Follows the spec's words for claim C4, to be compared with the code's
`stripLast4`: remove the member name's last 4 *characters* (UTF-8 code
points), dropping whole characters from the end.  Works on the reversed
byte list; continuation bytes do not count as characters. -/
def dropCharsRev : List Nat → Nat → List Nat
  | [], _ => []
  | b :: rest, k =>
    if b < 0x80 ∨ 0xC0 ≤ b then
      if k ≤ 1 then rest else dropCharsRev rest (k - 1)
    else dropCharsRev rest k

/-- Follows the spec's words for claim C4: the member name with its last
4 characters removed. -/
def specStripLast4Chars (key : Str) : Str :=
  (dropCharsRev key.reverse 4).reverse

theorem lookupA_insertA_self {β : Type} (m : List (Str × β)) (k : Str) (v : β) :
    lookupA (insertA m k v) k = some v := by
  induction m with
  | nil => simp [insertA, lookupA]
  | cons p rest ih =>
    obtain ⟨k', v'⟩ := p
    by_cases h : k' = k
    · simp [insertA, lookupA, h]
    · simp [insertA, lookupA, h, ih]

theorem lookupA_eq_none_of_not_mem {β : Type} (m : List (Str × β)) (k : Str)
    (h : k ∉ keysOf m) : lookupA m k = none := by
  induction m with
  | nil => simp [lookupA]
  | cons p rest ih =>
    obtain ⟨k', v'⟩ := p
    rw [show keysOf ((k', v') :: rest) = k' :: keysOf rest from rfl] at h
    simp only [List.mem_cons, not_or] at h
    have hne : ¬k' = k := fun hh => h.1 hh.symm
    simp [lookupA, hne, ih h.2]

/-- The class document of the spec's end-to-end scenario: version B
(10202), type `AExample`, member `Flags1` with value array
`[ "bool", 0x10, 4, 0, 2 ]`. -/
def docC3 : BlobInfo :=
  ⟨[[(strBytes "AExample",
      Json.arr [Json.obj [(strBytes "Flags1",
        Json.arr [Json.str (strBytes "bool"), Json.num 16, Json.num 4,
                  Json.num 0, Json.num 2])]])]], 10202⟩

/-- Claim C3: ingesting a version-B class document whose member `Flags1`
on type `AExample` carries the array `[_, 0x10, 4, 0, 2]` succeeds and
produces the record offset = 0x10, size = 4, is_bitfield = true,
bit_offset = 2, is_resolved = true, stored under the concatenated key
`AExampleFlags1` and returned by `get_member_offset "AExample" "Flags1"`. -/
theorem c3_version_b_bitfield_example :
    (parse_class_info docC3 emptyState).2 = false
    ∧ get_member_offset (parse_class_info docC3 emptyState).1
        (strBytes "AExample") (strBytes "Flags1") =
        some ⟨16, 4, true, 2, true⟩
    ∧ lookupA (parse_class_info docC3 emptyState).1.class_member_map
        (strBytes "AExampleFlags1") = some ⟨16, 4, true, 2, true⟩ := by
  decide

/-- A version-A (10201) class document whose member `M` has a value array
of length 5 — a length that is neither version A's bitfield length 4 nor
its plain length 3. -/
def docC1len5 : BlobInfo :=
  ⟨[[(strBytes "C",
      Json.arr [Json.obj [(strBytes "M",
        Json.arr [Json.str [], Json.num 8, Json.num 4, Json.num 0,
                  Json.num 0])]])]], 10201⟩

/-- Claim C1, counterexample: the claim says any array length other than
the version's bitfield length (here, other than 4 for version A, with 3
as the non-bitfield length) is a fatal parse error for the whole
document; but a version-A document with a length-5 member array parses
without error and stores an ordinary non-bitfield record. -/
theorem c1_other_length_not_fatal_counterexample :
    (parse_class_info docC1len5 emptyState).2 = false
    ∧ get_member_offset (parse_class_info docC1len5 emptyState).1
        (strBytes "C") (strBytes "M") = some ⟨8, 4, false, 0, true⟩ := by
  decide

/-- Claim C1, amended: for a recognized version (10201 or 10202), a member
record's bitfield status is determined solely by the version and the
array's length — version A with length 4 and version B with length 5 are
bitfields — but any other array length yields an ordinary non-bitfield
record (provided the offset and size elements parse), not a fatal error. -/
theorem c1_bitfield_by_version_and_length :
    (∀ (version : Nat) (cname key : Str) (xs : List Json) (s s' : DSAPIState),
      key ≠ sizeMarker → key ≠ inheritMarker →
      (version = 10201 ∨ version = 10202) →
      parseRecord version cname [(key, Json.arr xs)] s = some s' →
      ∃ K info, s' = { s with class_member_map := insertA s.class_member_map K info }
        ∧ info.is_bit = isBitOf version xs.length)
    ∧ (∀ (version : Nat) (cname key : Str) (xs : List Json) (o z : Int) (s : DSAPIState),
      key ≠ sizeMarker → key ≠ inheritMarker →
      (version = 10201 ∧ xs.length ≠ 4 ∨ version = 10202 ∧ xs.length ≠ 5) →
      xs[1]?.bind Json.asI64 = some o →
      xs[2]?.bind Json.asI64 = some z →
      parseRecord version cname [(key, Json.arr xs)] s =
        some { s with class_member_map := insertA s.class_member_map (cname ++ key) ⟨o, z, false, 0, true⟩ }) := by
  constructor
  · intro version cname key xs s s' h1 h2 hv hp
    simp only [parseRecord, if_neg h1, if_neg h2, Json.asArray] at hp
    rcases hv with rfl | rfl <;>
      (repeat' split at hp) <;>
      first
        | exact Option.noConfusion hp
        | omega
        | (injection hp with hp
           subst hp
           refine ⟨_, _, rfl, ?_⟩
           simp only [isBitOf]
           simp_all)
  · intro version cname key xs o z s h1 h2 hv ho hz
    rcases hv with ⟨rfl, hlen⟩ | ⟨rfl, hlen⟩ <;>
      simp [parseRecord, if_neg h1, if_neg h2, Json.asArray, ho, hz, hlen]

/-- The state produced by the version-B bitfield record used to witness
the first part of the C1 theorem. -/
def c1wState : DSAPIState :=
  { emptyState with class_member_map := [(strBytes "CM", ⟨16, 4, true, 2, true⟩)] }

/-- Witness for the C1 theorem: a concrete version-B length-5 record is a
bitfield, and a concrete version-A length-5 record parses as a
non-bitfield member instead of failing. -/
theorem c1_witness :
    (∃ K info, c1wState = { emptyState with class_member_map := insertA emptyState.class_member_map K info }
      ∧ info.is_bit = isBitOf 10202 ([Json.str [], Json.num 16, Json.num 4, Json.num 0, Json.num 2] : List Json).length)
    ∧ parseRecord 10201 (strBytes "C")
        [(strBytes "M", Json.arr [Json.str [], Json.num 8, Json.num 4, Json.num 0, Json.num 0])] emptyState =
        some { emptyState with class_member_map := insertA emptyState.class_member_map (strBytes "C" ++ strBytes "M") ⟨8, 4, false, 0, true⟩ } :=
  ⟨c1_bitfield_by_version_and_length.1 10202 (strBytes "C") (strBytes "M")
      [Json.str [], Json.num 16, Json.num 4, Json.num 0, Json.num 2] emptyState c1wState
      (by decide) (by decide) (Or.inr rfl) (by decide),
   c1_bitfield_by_version_and_length.2 10201 (strBytes "C") (strBytes "M")
      [Json.str [], Json.num 8, Json.num 4, Json.num 0, Json.num 0] 8 4 emptyState
      (by decide) (by decide) (Or.inl ⟨rfl, by decide⟩) (by decide) (by decide)⟩

/-- A class document with unrecognized version 9999 holding only a size
record for type `T`. -/
def docC2 : BlobInfo :=
  ⟨[[(strBytes "T", Json.arr [Json.obj [(sizeMarker, Json.num 64)]])]], 9999⟩

/-- Claim C2, counterexample: a document with unrecognized version 9999
whose only record is a `__MDKClassSize` record is ingested without any
failure, and its TypeSize entry lands in the table — the version check
only runs on member records, so neither conjunct of the claim holds. -/
theorem c2_unknown_version_counterexample :
    (parse_class_info docC2 emptyState).2 = false
    ∧ get_class_size (parse_class_info docC2 emptyState).1 (strBytes "T") = some 64 := by
  decide

/-- A version-9999 document whose group holds a size record and then a
member record. -/
def docC2partial : BlobInfo :=
  ⟨[[(strBytes "T",
      Json.arr [Json.obj [(sizeMarker, Json.num 64)],
                Json.obj [(strBytes "M", Json.arr [Json.str [], Json.num 8, Json.num 4])]])]], 9999⟩

/-- Claim C2, amended: an unrecognized version makes every member record
(any key other than the two markers) panic, so ingestion fails at the
first member record of the document — but size records processed before
that point have already been inserted and remain in the table, and a
document with no member records is ingested without any failure. -/
theorem c2_unknown_version_member_panic :
    (∀ (version : Nat) (cname key : Str) (val : Json) (s : DSAPIState),
      version ≠ 10201 → version ≠ 10202 → key ≠ sizeMarker → key ≠ inheritMarker →
      parseRecord version cname [(key, val)] s = none)
    ∧ ((parse_class_info docC2partial emptyState).2 = true
       ∧ get_class_size (parse_class_info docC2partial emptyState).1 (strBytes "T") = some 64) := by
  constructor
  · intro version cname key val s hv1 hv2 h1 h2
    simp only [parseRecord, if_neg h1, if_neg h2]
    cases val <;> simp only [Json.asArray]
    split <;> simp [hv1, hv2]
  · exact ⟨by decide, by decide⟩

/-- Witness for the C2 theorem: a concrete member record under version
9999 panics. -/
theorem c2_witness :
    parseRecord 9999 (strBytes "C") [(strBytes "M", Json.null)] emptyState = none :=
  c2_unknown_version_member_panic.1 9999 (strBytes "C") (strBytes "M") Json.null emptyState
    (by decide) (by decide) (by decide) (by decide)

/-- A version-A document whose bitfield member name `ABéé` ends in two
2-byte characters: its last 4 bytes are only 2 characters. -/
def docC4 : BlobInfo :=
  ⟨[[(strBytes "C",
      Json.arr [Json.obj [(strBytes "ABéé",
        Json.arr [Json.str [], Json.num 8, Json.num 1, Json.num 0])]])]], 10201⟩

/-- Claim C4, counterexample: the claim says the stored key is the type
name concatenated with the member name after stripping its last 4
*characters*; for member `ABéé` that key would be `C`, but nothing is
stored there — the code strips 4 *bytes*, storing the record under
`CAB`. -/
theorem c4_char_strip_counterexample :
    (parse_class_info docC4 emptyState).2 = false
    ∧ lookupA (parse_class_info docC4 emptyState).1.class_member_map
        (strBytes "C" ++ specStripLast4Chars (strBytes "ABéé")) = none
    ∧ lookupA (parse_class_info docC4 emptyState).1.class_member_map
        (strBytes "CAB") = some ⟨8, 1, true, 0, true⟩ := by
  decide

/-- Claim C4, amended: for version-A (10201) documents a bitfield record
(array length 4) takes its bit offset from the array's 4th element and is
stored under the type name concatenated with the member name minus its
last 4 *bytes* (when that cut stays on a character boundary); version-A
records of any other array length store bit_offset = 0, is_bitfield =
false under the unstripped name. -/
theorem c4_version_a_strip :
    (∀ (cname key stripped : Str) (xs : List Json) (o z b : Int) (s : DSAPIState),
      key ≠ sizeMarker → key ≠ inheritMarker →
      xs.length = 4 →
      xs[1]?.bind Json.asI64 = some o →
      xs[2]?.bind Json.asI64 = some z →
      xs[3]?.bind Json.asI64 = some b →
      stripLast4 key = some stripped →
      parseRecord 10201 cname [(key, Json.arr xs)] s =
        some { s with class_member_map := insertA s.class_member_map (cname ++ stripped) ⟨o, z, true, toI32 b, true⟩ })
    ∧ (∀ (cname key : Str) (xs : List Json) (o z : Int) (s : DSAPIState),
      key ≠ sizeMarker → key ≠ inheritMarker →
      xs.length ≠ 4 →
      xs[1]?.bind Json.asI64 = some o →
      xs[2]?.bind Json.asI64 = some z →
      parseRecord 10201 cname [(key, Json.arr xs)] s =
        some { s with class_member_map := insertA s.class_member_map (cname ++ key) ⟨o, z, false, 0, true⟩ }) := by
  constructor
  · intro cname key stripped xs o z b s h1 h2 hlen ho hz hb hst
    simp only [parseRecord, if_neg h1, if_neg h2, Json.asArray, ho, hz, hb, hst, hlen, reduceIte]
  · intro cname key xs o z s h1 h2 hlen ho hz
    simp only [parseRecord, if_neg h1, if_neg h2, Json.asArray, ho, hz, reduceIte, if_neg hlen]

/-- Witness for the C4 theorem: a concrete version-A bitfield member
`Flags8` is stored under `C ++ Fl` (its last 4 bytes stripped) with bit
offset 3, and a concrete length-3 member `M` is stored unstripped with
bit offset 0. -/
theorem c4_witness :
    parseRecord 10201 (strBytes "C")
      [(strBytes "Flags8", Json.arr [Json.str [], Json.num 8, Json.num 1, Json.num 3])] emptyState =
      some { emptyState with class_member_map := insertA emptyState.class_member_map (strBytes "C" ++ strBytes "Fl") ⟨8, 1, true, toI32 3, true⟩ }
    ∧ parseRecord 10201 (strBytes "C")
      [(strBytes "M", Json.arr [Json.str [], Json.num 8, Json.num 4])] emptyState =
      some { emptyState with class_member_map := insertA emptyState.class_member_map (strBytes "C" ++ strBytes "M") ⟨8, 4, false, 0, true⟩ } :=
  ⟨c4_version_a_strip.1 (strBytes "C") (strBytes "Flags8") (strBytes "Fl")
      [Json.str [], Json.num 8, Json.num 1, Json.num 3] 8 1 3 emptyState
      (by decide) (by decide) (by decide) (by decide) (by decide) (by decide) (by decide),
   c4_version_a_strip.2 (strBytes "C") (strBytes "M")
      [Json.str [], Json.num 8, Json.num 4] 8 4 emptyState
      (by decide) (by decide) (by decide) (by decide) (by decide)⟩

/-- The enum document `EColor → [[{"Red": 0}, {"Green": 1}]]` of the
spec's scenario. -/
def docEColor : BlobInfo :=
  ⟨[[(strBytes "EColor",
      Json.arr [Json.arr [Json.obj [(strBytes "Red", Json.num 0)],
                          Json.obj [(strBytes "Green", Json.num 1)]]])]], 10202⟩

/-- A single-entry enum document, used to state the round-trip for an
arbitrary enum name and (possibly zero or negative) value. -/
def singleEnumDoc (ename name : Str) (v : Int) : BlobInfo :=
  ⟨[[(ename, Json.arr [Json.arr [Json.obj [(name, Json.num v)]]])]], 10202⟩

/-- Claim C5: enum ingestion inserts the symbolic name under exactly the
key `enum_name ++ decimal(value)` and `get_enum_name` queries exactly
that key, so an ingested (enum name, value) pair — zero and negative
values included — round-trips; in particular `EColor → [[{"Red":0},
{"Green":1}]]` makes `get_enum_name "EColor" 1` return `"Green"`. -/
theorem c5_enum_key_roundtrip :
    (∀ (s : DSAPIState) (e : Str) (v : Int),
      get_enum_name s e v = lookupA s.enum_name_map (e ++ intDecBytes v))
    ∧ (∀ (ename name : Str) (v : Int) (s : DSAPIState),
      -(2 ^ 63) ≤ v → v < 2 ^ 63 →
      parseEnumEntry ename (Json.obj [(name, Json.num v)]) s =
        some { s with enum_name_map := insertA s.enum_name_map (ename ++ intDecBytes v) name })
    ∧ (∀ (ename name : Str) (v : Int) (s : DSAPIState),
      -(2 ^ 63) ≤ v → v < 2 ^ 63 →
      (parse_enums_info (singleEnumDoc ename name v) s).2 = false
      ∧ get_enum_name (parse_enums_info (singleEnumDoc ename name v) s).1 ename v = some name)
    ∧ ((parse_enums_info docEColor emptyState).2 = false
       ∧ get_enum_name (parse_enums_info docEColor emptyState).1 (strBytes "EColor") 1 = some (strBytes "Green")
       ∧ get_enum_name (parse_enums_info docEColor emptyState).1 (strBytes "EColor") 0 = some (strBytes "Red")) := by
  refine ⟨fun s e v => rfl, ?_, ?_, by decide, by decide, by decide⟩
  · intro ename name v s hlo hhi
    simp only [parseEnumEntry, Json.asI64]
    rw [if_pos ⟨hlo, hhi⟩]
  · intro ename name v s hlo hhi
    simp only [parse_enums_info, singleEnumDoc, parseEnumGroups, parseEnumPairs, parseEnumPair,
      parseEnumEntries, parseEnumEntry, Json.asArray, Json.asI64, List.getElem?_cons_zero,
      Option.some.injEq]
    rw [if_pos ⟨hlo, hhi⟩]
    constructor
    · rfl
    · simpa [get_enum_name] using lookupA_insertA_self _ _ _

/-- Witness for the C5 theorem: the `EColor` entry `{"Green": 1}` inserts
under key `EColor1`, and a negative value `-5` round-trips through a
single-entry document. -/
theorem c5_witness :
    parseEnumEntry (strBytes "EColor") (Json.obj [(strBytes "Green", Json.num 1)]) emptyState =
      some { emptyState with enum_name_map := insertA emptyState.enum_name_map (strBytes "EColor" ++ intDecBytes 1) (strBytes "Green") }
    ∧ get_enum_name (parse_enums_info (singleEnumDoc (strBytes "E") (strBytes "Neg") (-5)) emptyState).1 (strBytes "E") (-5) = some (strBytes "Neg") :=
  ⟨c5_enum_key_roundtrip.2.1 (strBytes "EColor") (strBytes "Green") 1 emptyState
      (by decide) (by decide),
   (c5_enum_key_roundtrip.2.2.1 (strBytes "E") (strBytes "Neg") (-5) emptyState
      (by decide) (by decide)).2⟩

/-- The ingested state holding the member record `M` of class `C` with a
negative byte offset `-1` (version-B document, plain length-3 array). -/
def docNeg : BlobInfo :=
  ⟨[[(strBytes "C",
      Json.arr [Json.obj [(strBytes "M",
        Json.arr [Json.str [], Json.num (-1), Json.num 8])]])]], 10202⟩

/-- The lookup tables after ingesting `docNeg`. -/
def stNeg : DSAPIState := (parse_class_info docNeg emptyState).1

/-- Claim C6, counterexample: for the present member `C.M` whose stored
offset is `-1`, `get_member_offset` returns the record with offset `-1`
while `get_member_offset_unchecked` returns `2^64 - 1` — not the same
byte offset. -/
theorem c6_negative_offset_counterexample :
    get_member_offset stNeg (strBytes "C") (strBytes "M") = some ⟨-1, 8, false, 0, true⟩
    ∧ get_member_offset_unchecked stNeg (strBytes "C") (strBytes "M") = some (2 ^ 64 - 1)
    ∧ ¬(((2 ^ 64 - 1 : Nat) : Int) = (-1 : Int)) := by
  refine ⟨by decide, by decide, by decide⟩

/-- Claim C6, amended: on a present key `get_member_offset_unchecked`
returns the record's offset cast to usize (the offset modulo `2^64`),
which equals the byte offset held by the `get_member_offset` record
whenever that offset is a nonnegative 64-bit value; on an absent key it
panics and returns nothing at all. -/
theorem c6_unchecked_offset (s : DSAPIState) (c m : Str) :
    (∀ info, get_member_offset s c m = some info →
      get_member_offset_unchecked s c m = some (toUsize info.offset)
      ∧ (0 ≤ info.offset → info.offset < 2 ^ 64 → (toUsize info.offset : Int) = info.offset))
    ∧ (get_member_offset s c m = none → get_member_offset_unchecked s c m = none) := by
  constructor
  · intro info hinfo
    refine ⟨?_, ?_⟩
    · simp [get_member_offset_unchecked, get_member_offset] at hinfo ⊢
      simp [hinfo]
    · intro hlo hhi
      have h64 : (2 : Int) ^ 64 = 18446744073709551616 := by norm_num
      rw [h64] at hhi
      simp only [toUsize, h64]
      omega
  · intro hnone
    simp [get_member_offset_unchecked, get_member_offset] at hnone ⊢
    simp [hnone]

/-- Witness for the C6 theorem: at the concrete ingested state `stNeg`
the present key `C ++ M` yields `some (toUsize (-1))`, and the absent key
`CX` makes the unchecked variant panic. -/
theorem c6_witness :
    get_member_offset_unchecked stNeg (strBytes "C") (strBytes "M") = some (toUsize (-1))
    ∧ get_member_offset_unchecked stNeg (strBytes "C") (strBytes "X") = none :=
  ⟨((c6_unchecked_offset stNeg (strBytes "C") (strBytes "M")).1 ⟨-1, 8, false, 0, true⟩ (by decide)).1,
   (c6_unchecked_offset stNeg (strBytes "C") (strBytes "X")).2 (by decide)⟩

/-- Claim C7: a key never inserted into the respective table makes each
of the four point lookups — `get_member_offset`, `get_class_size`,
`get_enum_name`, `get_offset` — return `none`; none of them can abort
(each is a total function into `Option`). -/
theorem c7_absent_key_none (s : DSAPIState) (c m t e g : Str) (v : Int) :
    ((c ++ m) ∉ keysOf s.class_member_map → get_member_offset s c m = none)
    ∧ (t ∉ keysOf s.class_size_map → get_class_size s t = none)
    ∧ ((e ++ intDecBytes v) ∉ keysOf s.enum_name_map → get_enum_name s e v = none)
    ∧ (g ∉ keysOf s.offset_map → get_offset s g = none) :=
  ⟨fun h => lookupA_eq_none_of_not_mem _ _ h,
   fun h => lookupA_eq_none_of_not_mem _ _ h,
   fun h => lookupA_eq_none_of_not_mem _ _ h,
   fun h => lookupA_eq_none_of_not_mem _ _ h⟩

/-- Witness for the C7 theorem: the spec's four absent-key queries on the
fresh (empty) tables all return `none`. -/
theorem c7_witness :
    get_member_offset emptyState (strBytes "NoType") (strBytes "NoMember") = none
    ∧ get_class_size emptyState (strBytes "NoType") = none
    ∧ get_enum_name emptyState (strBytes "NoEnum") 0 = none
    ∧ get_offset emptyState (strBytes "NO_OFFSET") = none :=
  ⟨(c7_absent_key_none emptyState (strBytes "NoType") (strBytes "NoMember") (strBytes "NoType")
      (strBytes "NoEnum") (strBytes "NO_OFFSET") 0).1 (by decide),
   (c7_absent_key_none emptyState (strBytes "NoType") (strBytes "NoMember") (strBytes "NoType")
      (strBytes "NoEnum") (strBytes "NO_OFFSET") 0).2.1 (by decide),
   (c7_absent_key_none emptyState (strBytes "NoType") (strBytes "NoMember") (strBytes "NoType")
      (strBytes "NoEnum") (strBytes "NO_OFFSET") 0).2.2.1 (by decide),
   (c7_absent_key_none emptyState (strBytes "NoType") (strBytes "NoMember") (strBytes "NoType")
      (strBytes "NoEnum") (strBytes "NO_OFFSET") 0).2.2.2 (by decide)⟩

/-- A class/struct document holding exactly one size record for type `T`. -/
def mkSizeDoc (T : Str) (n : Int) : BlobInfo :=
  ⟨[[(T, Json.arr [Json.obj [(sizeMarker, Json.num n)]])]], 10202⟩

/-- An empty blob, standing in for a document with no groups. -/
def emptyBlob : BlobInfo := ⟨[], 10202⟩

/-- Claim C8: a record whose single key is the reserved size marker
`__MDKClassSize` writes its sole value (truncated to `i32`) to the size
table keyed by the owning type name, touching no other table (no
MemberOffset is produced); and when the class document and the
later-processed struct document both carry a size record for the same
type, the struct document's value overwrites the class document's — last
write wins, with no error. -/
theorem c8_size_marker_last_write_wins :
    (∀ (version : Nat) (cname : Str) (n : Int) (s : DSAPIState),
      -(2 ^ 63) ≤ n → n < 2 ^ 63 →
      parseRecord version cname [(sizeMarker, Json.num n)] s =
        some { s with class_size_map := insertA s.class_size_map cname (toI32 n) })
    ∧ (∀ (T : Str) (n1 n2 : Int),
      -(2 ^ 63) ≤ n1 → n1 < 2 ^ 63 → -(2 ^ 63) ≤ n2 → n2 < 2 ^ 63 →
      download_content (mkSizeDoc T n1) (mkSizeDoc T n2) emptyBlob [] =
        ({ emptyState with class_size_map := [(T, toI32 n2)] }, false)
      ∧ get_class_size (download_content (mkSizeDoc T n1) (mkSizeDoc T n2) emptyBlob []).1 T =
          some (toI32 n2)) := by
  have hrec : ∀ (version : Nat) (cname : Str) (n : Int) (s : DSAPIState),
      -(2 ^ 63) ≤ n → n < 2 ^ 63 →
      parseRecord version cname [(sizeMarker, Json.num n)] s =
        some { s with class_size_map := insertA s.class_size_map cname (toI32 n) } := by
    intro version cname n s hlo hhi
    simp only [parseRecord, reduceIte, Json.asI64]
    rw [if_pos ⟨hlo, hhi⟩]
  refine ⟨hrec, ?_⟩
  intro T n1 n2 h1 h2 h3 h4
  have p1 := hrec 10202 T n1 emptyState h1 h2
  have p2 := hrec 10202 T n2 { emptyState with class_size_map := [(T, toI32 n1)] } h3 h4
  simp only [insertA] at p1 p2
  have hdl : download_content (mkSizeDoc T n1) (mkSizeDoc T n2) emptyBlob [] =
      ({ emptyState with class_size_map := [(T, toI32 n2)] }, false) := by
    simp [download_content, parse_class_info, mkSizeDoc, emptyBlob, parseGroups,
      parseGroupPairs, asRecordList, asObjList, parseRecords, p1, p2, insertA,
      parse_enums_info, parseEnumGroups, parse_offsets_info, parseOffsetRows]
  exact ⟨hdl, by rw [hdl]; simp [get_class_size, lookupA]⟩

/-- Witness for the C8 theorem: a concrete size record for `AActor`
updates only the size table, and ingesting size 100 from the class
document then size 200 from the struct document leaves 200. -/
theorem c8_witness :
    parseRecord 10202 (strBytes "AActor") [(sizeMarker, Json.num 1000)] emptyState =
      some { emptyState with class_size_map := insertA emptyState.class_size_map (strBytes "AActor") (toI32 1000) }
    ∧ get_class_size (download_content (mkSizeDoc (strBytes "AActor") 100) (mkSizeDoc (strBytes "AActor") 200) emptyBlob []).1 (strBytes "AActor") = some (toI32 200) :=
  ⟨c8_size_marker_last_write_wins.1 10202 (strBytes "AActor") 1000 emptyState (by decide) (by decide),
   (c8_size_marker_last_write_wins.2 (strBytes "AActor") 100 200
      (by decide) (by decide) (by decide) (by decide)).2⟩

/-- Claim C9: in a version-A (10201) document, a bitfield record (array
length 4) whose member name is shorter than 4 bytes, or whose byte 4 from
the end is not on a UTF-8 character boundary, makes ingestion panic on
the suffix-stripping slice `&key[..key.len() - 4]` — no record and no
labeled schema error is produced. -/
theorem c9_strip_panic :
    ∀ (cname key : Str) (xs : List Json) (o z b : Int) (s : DSAPIState),
      key ≠ sizeMarker → key ≠ inheritMarker →
      xs.length = 4 →
      xs[1]?.bind Json.asI64 = some o →
      xs[2]?.bind Json.asI64 = some z →
      xs[3]?.bind Json.asI64 = some b →
      (key.length < 4 ∨ isBoundary key (key.length - 4) = false) →
      parseRecord 10201 cname [(key, Json.arr xs)] s = none := by
  intro cname key xs o z b s h1 h2 hlen ho hz hb hcut
  have hstrip : stripLast4 key = none := by
    rcases hcut with hshort | hbad
    · simp [stripLast4, hshort]
    · by_cases hl : key.length < 4
      · simp [stripLast4, hl]
      · simp [stripLast4, hl, hbad]
  simp only [parseRecord, if_neg h1, if_neg h2, Json.asArray, ho, hz, hb, hlen, reduceIte, hstrip]

/-- Witness for the C9 theorem: the member name `éxxx` (whose byte 4 from
the end is the continuation byte 0xA9) and the 2-byte name `ab` both make
a version-A bitfield record panic. -/
theorem c9_witness :
    parseRecord 10201 (strBytes "C")
      [(strBytes "éxxx", Json.arr [Json.str [], Json.num 1, Json.num 2, Json.num 3])] emptyState = none
    ∧ parseRecord 10201 (strBytes "C")
      [(strBytes "ab", Json.arr [Json.str [], Json.num 1, Json.num 2, Json.num 3])] emptyState = none :=
  ⟨c9_strip_panic (strBytes "C") (strBytes "éxxx") [Json.str [], Json.num 1, Json.num 2, Json.num 3]
      1 2 3 emptyState (by decide) (by decide) (by decide) (by decide) (by decide) (by decide)
      (Or.inr (by decide)),
   c9_strip_panic (strBytes "C") (strBytes "ab") [Json.str [], Json.num 1, Json.num 2, Json.num 3]
      1 2 3 emptyState (by decide) (by decide) (by decide) (by decide) (by decide) (by decide)
      (Or.inl (by decide))⟩

/-- Claim C10: when the stored byte offset of a present member is
negative, `get_member_offset_unchecked` does not fail: it returns the
offset cast from signed 64-bit to usize — the offset modulo `2^64`,
i.e. `offset + 2^64` for an in-range negative `i64` — while
`get_member_offset` still returns the record with the negative offset. -/
theorem c10_unchecked_negative_wrap :
    ∀ (s : DSAPIState) (c m : Str) (info : OffsetInfo),
      get_member_offset s c m = some info → info.offset < 0 →
      get_member_offset_unchecked s c m = some (toUsize info.offset)
      ∧ (-(2 ^ 63) ≤ info.offset → (toUsize info.offset : Int) = info.offset + 2 ^ 64) := by
  intro s c m info hinfo hneg
  constructor
  · simp [get_member_offset, get_member_offset_unchecked] at hinfo ⊢
    simp [hinfo]
  · intro hlo
    have h64 : (2 : Int) ^ 64 = 18446744073709551616 := by norm_num
    have h63 : (2 : Int) ^ 63 = 9223372036854775808 := by norm_num
    rw [h63] at hlo
    simp only [toUsize, h64]
    omega

/-- Witness for the C10 theorem: at the ingested state `stNeg` the member
`C.M` with stored offset `-1` makes the unchecked query return
`toUsize (-1)`, which equals `-1 + 2^64`. -/
theorem c10_witness :
    get_member_offset_unchecked stNeg (strBytes "C") (strBytes "M") = some (toUsize (-1))
    ∧ (toUsize (-1 : Int) : Int) = -1 + 2 ^ 64 :=
  ⟨(c10_unchecked_negative_wrap stNeg (strBytes "C") (strBytes "M") ⟨-1, 8, false, 0, true⟩
      (by decide) (by decide)).1,
   (c10_unchecked_negative_wrap stNeg (strBytes "C") (strBytes "M") ⟨-1, 8, false, 0, true⟩
      (by decide) (by decide)).2 (by decide)⟩

end Dumpspace
